import Mathlib

/-!
Verification development for the `ghost` Varnish VMOD (Gateway-API routing
engine).  Rust strings are modelled as `List Char`; `u16`/`u32`/`i32` values
are modelled as `Nat`/`Int` (weight sums are mathematical: debug builds of the
source panic on overflow, so no wrapped behaviour is intended).  Fallible
operations are modelled with `Except`/`Option`.
-/

namespace Ghost

/-- Rust `String`/`&str` values, modelled as lists of characters. -/
abbrev Str := List Char

/-- Rust `to_lowercase` (the source only ever feeds it ASCII hostnames). -/
def lowerStr (s : Str) : Str := s.map Char.toLower

/- ### Path matching (src/ghost/src/director.rs, `matches_path_prefix`) -/

/-- Embedding of `matches_path_prefix` (director.rs lines 719-744):
Gateway-API element-wise prefix matching. -/
def matchesPathPfx (pfx path : Str) : Bool :=
  if pfx = ['/'] then true
  else if path = pfx then true
  else if ¬ pfx.isPrefixOf path then false
  else if pfx.getLast? = some '/' then true
  else (path.drop pfx.length).head? = some '/'

/-- Compiled path match (director.rs `PathMatchCompiled`).  The regex arm
carries the compiled regex abstractly as its matching function. -/
inductive PathMatchCompiled where
  | exact (value : Str)
  | pathPfx (value : Str)
  | regex (isMatch : Str → Bool)

/-- Embedding of `PathMatchCompiled::matches` (director.rs lines 63-70). -/
def PathMatchCompiled.matches : PathMatchCompiled → Str → Bool
  | .exact v, path => path = v
  | .pathPfx p, path => matchesPathPfx p path
  | .regex f, path => f path

/- ### Header and query-parameter matching (src/ghost/src/director.rs) -/

/-- Varnish `HttpHeaders::header` lookup: case-insensitive on the header
name, returning the first matching header line. -/
def headerLookup (hs : List (Str × Str)) (name : Str) : Option Str :=
  match hs with
  | [] => none
  | (k, v) :: rest =>
    if lowerStr k = lowerStr name then some v else headerLookup rest name

/-- Compiled header match (director.rs `HeaderMatchCompiled`); the stored
name is lowercased at compile time (director.rs line 83). -/
inductive HeaderMatchCompiled where
  | exact (name value : Str)
  | regex (name : Str) (isMatch : Str → Bool)

/-- Rust `str::split(sep)`: splits into (possibly empty) pieces; an input
with no separator yields one piece. -/
def splitOnChar (sep : Char) : Str → List Str
  | [] => [[]]
  | c :: rest =>
    if c = sep then [] :: splitOnChar sep rest
    else
      match splitOnChar sep rest with
      | [] => [[c]]
      | s :: ss => (c :: s) :: ss

/-- One `key=value` pair of a query string: `pair.find('=')` keyed split;
a pair containing no `=` is dropped (director.rs lines 702-708). -/
def splitPair (pair : Str) : Option (Str × Str) :=
  if '=' ∈ pair then
    some (pair.takeWhile (· ≠ '='), (pair.dropWhile (· ≠ '=')).drop 1)
  else none

/-- Embedding of `parse_query_string` (director.rs lines 700-711).  The
source inserts into a `HashMap` with `entry(key).or_insert(value)` (first
value wins); we keep the pairs in order and look up the first occurrence. -/
def parseQueryString (q : Str) : List (Str × Str) :=
  (splitOnChar '&' q).filterMap splitPair

/-- First-occurrence association lookup: models
`HashMap::get` after `entry(key).or_insert(value)` insertion order. -/
def assocFirst (ps : List (Str × Str)) (n : Str) : Option Str :=
  match ps with
  | [] => none
  | (k, v) :: rest => if k = n then some v else assocFirst rest n

/-- Compiled query-parameter match (director.rs `QueryParamMatchCompiled`). -/
inductive QueryParamMatchCompiled where
  | exact (name value : Str)
  | regex (name : Str) (isMatch : Str → Bool)

/-- Embedding of `QueryParamMatchCompiled::matches` (director.rs lines
169-185): parse the query string, look the name up, compare. -/
def QueryParamMatchCompiled.matches (qpm : QueryParamMatchCompiled) (qs : Str) : Bool :=
  match qpm with
  | .exact name value =>
    match assocFirst (parseQueryString qs) name with
    | some v => v = value
    | none => false
  | .regex name f =>
    match assocFirst (parseQueryString qs) name with
    | some v => f v
    | none => false

/-- Embedding of `HeaderMatchCompiled::matches` (director.rs lines 100-140),
with the request's raw header lines as input. -/
def HeaderMatchCompiled.matches (hm : HeaderMatchCompiled) (hs : List (Str × Str)) : Bool :=
  match hm with
  | .exact name value =>
    match headerLookup hs name with
    | some v => v = value
    | none => false
  | .regex name f =>
    match headerLookup hs name with
    | some v => f v
    | none => false

/- ### Route filters (consumed by src/ghost/src/vhost_director.rs and
src/ghost/src/redirect_backend.rs) -/

/-- Modelled from the spec: the `RequestHeaderFilter` declaration
(`request_header_modifier {add[], set[], remove[]}`) is referenced from
vhost_director.rs but its `config.rs` declaration is not under `src/`;
the field set is pinned by `apply_request_header_filter`. -/
structure RequestHeaderFilter where
  set : List (Str × Str)
  add : List (Str × Str)
  remove : List Str
deriving DecidableEq

/-- Modelled from the spec: the `URLRewriteFilter` declaration
(`url_rewrite {hostname?, path_type?, replace_full_path?,
replace_prefix_match?}`) is referenced from vhost_director.rs but its
`config.rs` declaration is not under `src/`; the field set is pinned by
`apply_url_rewrite_filter`. -/
structure URLRewriteFilter where
  hostname : Option Str
  pathType : Option Str
  replaceFullPath : Option Str
  replacePfxMatch : Option Str
deriving DecidableEq

/-- Modelled from the spec: the `RequestRedirectFilter` declaration
(`request_redirect {scheme?, hostname?, port?, path_type?,
replace_full_path?, replace_prefix_match?, status_code}`) is referenced from
redirect_backend.rs but its `config.rs` declaration is not under `src/`; the
field set is pinned by the constructor used in redirect_backend.rs tests. -/
structure RequestRedirectFilter where
  scheme : Option Str
  hostname : Option Str
  pathType : Option Str
  replaceFullPath : Option Str
  replacePfxMatch : Option Str
  port : Option Nat
  statusCode : Nat
deriving DecidableEq

/-- Modelled from the spec: the `RouteFilters` bundle declaration is
referenced from vhost_director.rs but its `config.rs` declaration is not
under `src/`; the field set is pinned by the constructor used in
vhost_director.rs tests (lines 727-732). -/
structure RouteFilters where
  requestHeaderModifier : Option RequestHeaderFilter
  responseHeaderModifier : Option RequestHeaderFilter
  requestRedirect : Option RequestRedirectFilter
  urlRewrite : Option URLRewriteFilter
deriving DecidableEq

/- ### Route entries and backend references -/

/-- Embedding of `WeightedBackendRef` (director.rs lines 31-37). -/
structure WeightedBackendRef where
  key : Str
  weight : Nat
deriving DecidableEq

/-- Route entry (director.rs `RouteEntry`, lines 188-196, plus the `filters`
and `rule_index` fields used by vhost_director.rs and constructed in its
tests, lines 590-602).  `rule_index` records input order before the
priority sort. -/
structure RouteEntry where
  pathMatch : Option PathMatchCompiled
  method : Option Str
  headers : List HeaderMatchCompiled
  queryParams : List QueryParamMatchCompiled
  filters : Option RouteFilters
  backends : List WeightedBackendRef
  priority : Int
  ruleIndex : Nat

/-- A request as `VhostDirector::resolve` sees it: raw header lines, the
path and optional query string already extracted from the URL, and the
method (defaulted to `GET` upstream). -/
structure Request where
  headers : List (Str × Str)
  path : Str
  query : Option Str
  method : Str

/-- The per-route condition check of `match_routes` (vhost_director.rs
lines 406-434): all present conditions must match, absent conditions pass;
a route requiring query params never matches a request with no query
string. -/
def routeMatches (route : RouteEntry) (req : Request) : Bool :=
  (match route.pathMatch with
   | some pm => pm.matches req.path
   | none => true) &&
  (match route.method with
   | some m => m = req.method
   | none => true) &&
  route.headers.all (fun hm => hm.matches req.headers) &&
  (match req.query with
   | some qs => route.queryParams.all (fun qpm => qpm.matches qs)
   | none => route.queryParams.isEmpty)

/-- Result of route matching (vhost_director.rs `RouteMatchResult`). -/
structure RouteMatchResult where
  backends : List WeightedBackendRef
  filters : Option RouteFilters
  matchedPath : Option PathMatchCompiled

/-- Embedding of vhost_director.rs `match_routes` (lines 399-446): the
first route (in priority order) whose conditions all match is returned,
even when its backend list is empty. -/
def matchRoutes : List RouteEntry → Request → Option RouteMatchResult
  | [], _ => none
  | r :: rest, req =>
    if routeMatches r req then
      some { backends := r.backends, filters := r.filters, matchedPath := r.pathMatch }
    else matchRoutes rest req

/- ### Weighted backend selection (vhost_director.rs lines 449-485) -/

/-- Total weight `S = Σ weight` of a backend list. -/
def sumWeights (refs : List WeightedBackendRef) : Nat :=
  (refs.map (fun r => r.weight)).sum

/-- The cumulative-weight scan of `select_backend_weighted`: pick the first
backend whose running cumulative weight exceeds the drawn value `r`. -/
def pickCumulative (r : Nat) : Nat → List WeightedBackendRef → Option WeightedBackendRef
  | _, [] => none
  | cum, b :: rest =>
    if r < cum + b.weight then some b else pickCumulative r (cum + b.weight) rest

/-- Cumulative weight of the first `k` backends. -/
def partialWeight (refs : List WeightedBackendRef) (k : Nat) : Nat :=
  sumWeights (refs.take k)

/-- Embedding of `select_backend_weighted` (vhost_director.rs lines
449-485); the random draw `r ∈ [0, S)` is passed in explicitly. -/
def selectBackendWeighted (refs : List WeightedBackendRef) (r : Nat) : Option WeightedBackendRef :=
  match refs with
  | [] => none
  | [b] => some b
  | b :: rest =>
    let total := sumWeights (b :: rest)
    if total = 0 then none
    else
      match pickCumulative r 0 (b :: rest) with
      | some x => some x
      | none => some b

/- ### Host parsing and the redirect backend
(src/ghost/src/vhost_director.rs, src/ghost/src/redirect_backend.rs) -/

/-- Rust `str::parse::<u16>()`: optional leading `+`, decimal digits,
value below 2^16. -/
def parseU16 (s : Str) : Option Nat :=
  let t := match s with
    | '+' :: rest => rest
    | _ => s
  if t ≠ [] ∧ t.all Char.isDigit then
    let n := t.foldl (fun a c => a * 10 + (c.toNat - 48)) 0
    if n < 65536 then some n else none
  else none

/-- Embedding of `parse_host_and_port` (vhost_director.rs lines 994-1022):
IPv6-bracket aware; for a regular host the port is split at the LAST colon,
and a non-numeric port falls back to returning the whole header. -/
def parseHostAndPort (h : Str) : Str × Option Nat :=
  match h.findIdx? (· = ']') with
  | some i =>
    if h.head? = some '[' then
      let host := h.take (i + 1)
      let portPart := h.drop (i + 1)
      match portPart with
      | ':' :: ps => (host, parseU16 ps)
      | _ => (host, none)
    else parseHostAndPortPlain h
  | none => parseHostAndPortPlain h
where
  /-- The non-bracket arm: `rfind(':')` then `parse::<u16>()`. -/
  parseHostAndPortPlain (h : Str) : Str × Option Nat :=
    match (h.reverse.findIdx? (· = ':')) with
    | some ri =>
      let pos := h.length - 1 - ri
      match parseU16 (h.drop (pos + 1)) with
      | some p => (h.take pos, some p)
      | none => (h, none)
    | none => (h, none)

/-- Embedding of `RedirectConfig` (redirect_backend.rs lines 10-21). -/
structure RedirectConfig where
  filter : RequestRedirectFilter
  originalScheme : Str
  originalHostname : Str
  originalPort : Nat
  originalPath : Str
  originalQuery : Str
  matchedPath : Option Str
deriving DecidableEq

/-- The redirect-config capture performed by `VhostDirector::resolve`
(vhost_director.rs lines 261-305): scheme from `X-Forwarded-Proto` (default
`http`), hostname and port from `Host` (default `localhost`; absent port
defaults to 443 for https else 80), plus the matched prefix string when the
path match was `Exact` or `PathPrefix`. -/
def mkRedirectConfig (rf : RequestRedirectFilter) (req : Request)
    (matchedPath : Option PathMatchCompiled) : RedirectConfig :=
  let hostHeader := (headerLookup req.headers "Host".data).getD "localhost".data
  let hp := parseHostAndPort hostHeader
  let scheme := (headerLookup req.headers "X-Forwarded-Proto".data).getD "http".data
  let port := hp.2.getD (if scheme = "https".data then 443 else 80)
  let matchedPathStr := matchedPath.bind fun pm =>
    match pm with
    | .pathPfx p => some p
    | .exact p => some p
    | .regex _ => none
  { filter := rf
    originalScheme := scheme
    originalHostname := hp.1
    originalPort := port
    originalPath := req.path
    originalQuery := req.query.getD []
    matchedPath := matchedPathStr }

/-- Rust `trim_end_matches('/')`: drop every trailing slash. -/
def trimEndSlashes (s : Str) : Str :=
  (s.reverse.dropWhile (· = '/')).reverse

/-- Rust `splitn(3, '/')`: at most three pieces, the last keeping any
further separators. -/
def splitn3Slash (s : Str) : List Str :=
  let a := s.takeWhile (· ≠ '/')
  match s.dropWhile (· ≠ '/') with
  | [] => [a]
  | _ :: r1 =>
    let b := r1.takeWhile (· ≠ '/')
    match r1.dropWhile (· ≠ '/') with
    | [] => [a, b]
    | _ :: r2 => [a, b, r2]

/-- Embedding of redirect_backend.rs `replace_first_segment_heuristic`
(lines 177-194). -/
def replaceFirstSegmentHeuristic (path newPfx : Str) : Str :=
  if path.head? = some '/' then
    match splitn3Slash path with
    | _ :: _ :: rest =>
      let remainder := match rest with
        | [r] => r
        | _ => []
      let trimmedNew := trimEndSlashes newPfx
      if remainder = [] then trimmedNew
      else trimmedNew ++ '/' :: remainder
    | _ => newPfx
  else newPfx

/-- Embedding of redirect_backend.rs `rewrite_path` (lines 142-174). -/
def rewritePath (filter : RequestRedirectFilter) (originalPath : Str)
    (matchedPathStr : Option Str) : Str :=
  match filter.replaceFullPath with
  | some fullPath => fullPath
  | none =>
    match filter.replacePfxMatch with
    | some newPfx =>
      match matchedPathStr with
      | some matchedPfx =>
        if matchedPfx.isPrefixOf originalPath then
          let remainder := originalPath.drop matchedPfx.length
          let trimmedNew := trimEndSlashes newPfx
          if remainder = [] then trimmedNew
          else if remainder.head? = some '/' then trimmedNew ++ remainder
          else trimmedNew ++ '/' :: remainder
        else replaceFirstSegmentHeuristic originalPath newPfx
      | none => replaceFirstSegmentHeuristic originalPath newPfx
    | none => originalPath

/-- Embedding of redirect_backend.rs `should_omit_port` (lines 138-140). -/
def shouldOmitPort (scheme : Str) (port : Nat) : Bool :=
  (scheme = "http".data ∧ port = 80) ∨ (scheme = "https".data ∧ port = 443)

/-- Decimal rendering of a port number (Rust `format!`). -/
def natToStr (n : Nat) : Str := Nat.toDigits 10 n

/-- Embedding of redirect_backend.rs `build_location` (lines 87-136):
filter components override the originals; if the scheme changes without an
explicit port the new scheme's default port is used; default ports are
omitted; the original query string is appended. -/
def buildLocation (cfg : RedirectConfig) : Str :=
  let scheme := cfg.filter.scheme.getD cfg.originalScheme
  let hostname := cfg.filter.hostname.getD cfg.originalHostname
  let port :=
    match cfg.filter.port with
    | some p => p
    | none =>
      if cfg.filter.scheme.isSome ∧ cfg.filter.scheme ≠ some cfg.originalScheme then
        if scheme = "https".data then 443 else 80
      else cfg.originalPort
  let path := rewritePath cfg.filter cfg.originalPath cfg.matchedPath
  let base := scheme ++ "://".data ++ hostname
  let withPort := if shouldOmitPort scheme port then base else base ++ ':' :: natToStr port
  let withPath := withPort ++ path
  if cfg.originalQuery ≠ [] then withPath ++ '?' :: cfg.originalQuery else withPath

/-- The status the Redirect synthetic backend sets on the response
(redirect_backend.rs line 64). -/
def redirectResponseStatus (cfg : RedirectConfig) : Nat := cfg.filter.statusCode

/- ### The vhost director's resolve decision
(src/ghost/src/vhost_director.rs, `VhostDirector::resolve`) -/

/-- Outcome of a `VhostDirector::resolve` call.  `noRoute` models the
`None` return when no route matches (the root director then serves
NotFound); `redirect` models returning the Redirect synthetic with the
serialized config; `internalError` models returning the InternalError
synthetic (HTTP 500); `backendKey` models the pool lookup of the selected
backend's key. -/
inductive ResolveOutcome where
  | noRoute
  | redirect (cfg : RedirectConfig)
  | internalError
  | backendKey (key : Str)
deriving DecidableEq

/-- The post-match tail of `resolve` (vhost_director.rs lines 353-368):
weighted selection; `None` (empty list or zero total weight) yields the
InternalError synthetic, otherwise the selected key is looked up. -/
def postMatchOutcome (backends : List WeightedBackendRef) (r : Nat) : ResolveOutcome :=
  match selectBackendWeighted backends r with
  | some b => .backendKey b.key
  | none => .internalError

/-- Embedding of `VhostDirector::resolve` (vhost_director.rs lines
206-369), with the random draw `r` passed explicitly.  A matched
`request_redirect` filter short-circuits to the Redirect synthetic before
backend selection; header/rewrite filters do not change the outcome
variant and are not tracked here. -/
def vhostResolve (routes : List RouteEntry) (req : Request) (r : Nat) : ResolveOutcome :=
  match matchRoutes routes req with
  | none => .noRoute
  | some mr =>
    match mr.filters with
    | some fs =>
      match fs.requestRedirect with
      | some rf => .redirect (mkRedirectConfig rf req mr.matchedPath)
      | none => postMatchOutcome mr.backends r
    | none => postMatchOutcome mr.backends r

/- ### Configuration model and loader (src/ghost/src/config.rs) -/

/-- Embedding of `config::Backend` (config.rs lines 9-15); `weight`
defaults to 100 when absent in the JSON. -/
structure BackendCfg where
  address : Str
  port : Nat
  weight : Nat
deriving DecidableEq

/-- Embedding of the v1 `VHost` (config.rs lines 22-25). -/
structure VHostCfg where
  backends : List BackendCfg
deriving DecidableEq

/-- Embedding of the v1 `Config` (config.rs lines 28-34). -/
structure Config where
  version : Nat
  vhosts : List (Str × VHostCfg)
  default : Option VHostCfg
deriving DecidableEq

/-- Embedding of `Config::empty` (config.rs lines 101-107). -/
def Config.empty : Config :=
  { version := 1, vhosts := [], default := none }

/-- Embedding of the v2 `Route` (config.rs lines 54-59). -/
structure RouteCfg where
  pathMatch : Option (Str × Str)
  backends : List BackendCfg
  priority : Int
deriving DecidableEq

/-- Embedding of the v2 `VHostV2` (config.rs lines 62-67). -/
structure VHostV2Cfg where
  routes : List RouteCfg
  defaultBackends : List BackendCfg
deriving DecidableEq

/-- Embedding of the v2 `ConfigV2` (config.rs lines 70-76). -/
structure ConfigV2 where
  version : Nat
  vhosts : List (Str × VHostV2Cfg)
  default : Option VHostCfg
deriving DecidableEq

/-- Embedding of `ConfigV2::empty` (config.rs lines 112-118). -/
def ConfigV2.empty : ConfigV2 :=
  { version := 2, vhosts := [], default := none }

/-- Embedding of `validate_hostname` (config.rs lines 161-185). -/
def validateHostname (hostname : Str) : Except Str Unit :=
  if hostname = [] then .error "hostname cannot be empty".data
  else if '*' ∈ hostname then
    if ¬ "*.".data.isPrefixOf hostname then
      .error "wildcard must be at start".data
    else if '*' ∈ hostname.drop 2 then
      .error "only single leading wildcard allowed".data
    else .ok ()
  else .ok ()

/-- Embedding of `validate_backends` (config.rs lines 188-207). -/
def validateBackends (backends : List BackendCfg) : Except Str Unit :=
  match backends with
  | [] => .ok ()
  | b :: rest =>
    if b.address = [] then .error "address cannot be empty".data
    else if b.port = 0 then .error "port cannot be 0".data
    else if b.weight = 0 then .error "weight cannot be 0".data
    else validateBackends rest

/-- Embedding of `validate` (config.rs lines 140-158): the supported v1
version value is 1. -/
def validate (config : Config) : Except Str Unit := do
  if config.version ≠ 1 then
    throw ("unsupported config version (expected 1)".data)
  for kv in config.vhosts do
    validateHostname kv.1
    validateBackends kv.2.backends
  match config.default with
  | some d => validateBackends d.backends
  | none => pure ()

/-- Embedding of `load` (config.rs lines 81-96).  The disk is modelled as
`Option Str` (`none` = the path names no file) and serde's
`serde_json::from_str` as an abstract parse function. -/
def load (disk : Option Str) (parse : Str → Except Str Config) : Except Str Config := do
  match disk with
  | none => pure Config.empty
  | some content =>
    let config ← parse content
    validate config
    pure config

/-- Embedding of `validate_v2` (config.rs lines 210-240), restricted to the
version check relevant here: the supported v2 version value is 2 (the
remaining checks mirror `validate`/`validate_path_match`). -/
def validateV2Version (config : ConfigV2) : Except Str Unit :=
  if config.version ≠ 2 then
    .error "unsupported config version (expected 2)".data
  else .ok ()

/-- Embedding of `load_v2` (config.rs lines 122-137) for the missing-file
case: a path naming no file yields `ConfigV2::empty`. -/
def loadV2 (disk : Option Str) (parse : Str → Except Str ConfigV2) : Except Str ConfigV2 := do
  match disk with
  | none => pure ConfigV2.empty
  | some content =>
    let config ← parse content
    validateV2Version config
    pure config

/- ### Building the routing state
(src/ghost/src/director.rs, `build_routing_state`, lines 210-305) -/

/-- One route of a vhost after matcher compilation, in config input order
(director.rs `Route` processing, lines 223-267), before the priority sort
assigns positions. -/
structure RouteSpecIn where
  pathMatch : Option PathMatchCompiled
  method : Option Str
  headers : List HeaderMatchCompiled
  queryParams : List QueryParamMatchCompiled
  filters : Option RouteFilters
  backends : List WeightedBackendRef
  priority : Int

/-- Turn the vhost's routes into `RouteEntry`s in input order; the rule
index records the input position (the tie-break key of the stable sort). -/
def mkEntries (i : Nat) : List RouteSpecIn → List RouteEntry
  | [] => []
  | r :: rest =>
    { pathMatch := r.pathMatch
      method := r.method
      headers := r.headers
      queryParams := r.queryParams
      filters := r.filters
      backends := r.backends
      priority := r.priority
      ruleIndex := i } :: mkEntries (i + 1) rest

/-- Stable insertion for the priority sort: a route is placed before the
first entry of strictly lower priority, hence after every earlier entry of
equal priority. -/
def insertRoute (x : RouteEntry) : List RouteEntry → List RouteEntry
  | [] => [x]
  | y :: ys => if y.priority < x.priority then x :: y :: ys else y :: insertRoute x ys

/-- Embedding of `route_entries.sort_by(|a, b| b.priority.cmp(&a.priority))`
(director.rs line 270): Rust's `sort_by` is a stable sort, realised here as
a stable insertion sort by priority descending. -/
def sortRoutesByPriority (l : List RouteEntry) : List RouteEntry :=
  l.foldl (fun acc x => insertRoute x acc) []

/-- The synthesized default route appended for non-empty `default_backends`
(director.rs lines 282-289): priority 0, no matchers, no filters. -/
def mkDefaultRoute (defaultRefs : List WeightedBackendRef) : RouteEntry :=
  { pathMatch := none
    method := none
    headers := []
    queryParams := []
    filters := none
    backends := defaultRefs
    priority := 0
    ruleIndex := 0 }

/-- Embedding of the per-vhost part of `build_routing_state` (director.rs
lines 220-290): compile routes in input order, sort by priority descending
(stable), then append the synthesized default route when `default_backends`
is non-empty. -/
def buildVhostRouteEntries (routes : List RouteSpecIn)
    (defaultRefs : List WeightedBackendRef) : List RouteEntry :=
  let sorted := sortRoutesByPriority (mkEntries 0 routes)
  if defaultRefs.isEmpty then sorted else sorted ++ [mkDefaultRoute defaultRefs]

/-- The route order used by the sort: priority descending, ties broken by
rule index ascending. -/
def routeLe (a b : RouteEntry) : Prop :=
  b.priority < a.priority ∨ (a.priority = b.priority ∧ a.ruleIndex ≤ b.ruleIndex)

instance : DecidableRel routeLe := fun a b => by
  unfold routeLe; infer_instance

/- ### Routing state, backend pool and reload
(src/ghost/src/director.rs, src/ghost/src/backend_pool.rs) -/

/-- Embedding of `RoutingState` (director.rs lines 200-207); `HashMap` and
`Vec` contents are modelled as association lists. -/
structure RoutingState where
  exact : List (Str × List RouteEntry)
  wildcards : List (Str × List RouteEntry)
  defaultRefs : Option (List WeightedBackendRef)

/-- The backend pool, keyed by `"address:port"`; only the key set matters
for the reload protocol (the handles are opaque Varnish pointers). -/
structure BackendPool where
  keys : List Str

/-- Embedding of `collect_referenced_backends` (director.rs lines 308-337):
every backend key reachable from the routing state. -/
def collectReferencedBackends (routing : RoutingState) : List Str :=
  (routing.exact.flatMap fun kv => kv.2.flatMap fun route => route.backends.map fun b => b.key)
  ++ (routing.wildcards.flatMap fun kv => kv.2.flatMap fun route => route.backends.map fun b => b.key)
  ++ (match routing.defaultRefs with
      | some refs => refs.map fun b => b.key
      | none => [])

/-- Embedding of `BackendPool::retain_only` (backend_pool.rs lines
108-111): drop every pool entry whose key is not in the keep set. -/
def retainOnly (pool : BackendPool) (keep : List Str) : BackendPool :=
  { keys := pool.keys.filter (fun k => k ∈ keep) }

/-- The published `(routing, pool)` snapshot owned by `GhostDirector`
(director.rs lines 340-349); concurrent `resolve` calls observe exactly
this pair via an atomic load. -/
structure DirectorState where
  routing : RoutingState
  pool : BackendPool

/-- Embedding of `GhostDirector::reload` (director.rs lines 377-398).  The
fallible steps are the config load (file read, JSON parse, validation —
`loadConfig`) and `build_routing_state` on a scratch clone of the current
pool (`build`, abstract because it performs regex compilation and native
backend creation).  Returns the state published after the call and the
error, if any: the stores at lines 394-395 run only after every fallible
step has succeeded. -/
def reload (st : DirectorState)
    (loadConfig : Except Str Config)
    (build : Config → BackendPool → Except Str (RoutingState × BackendPool)) :
    DirectorState × Option Str :=
  match loadConfig with
  | .error e => (st, some e)
  | .ok cfg =>
    match build cfg st.pool with
    | .error e => (st, some ("Failed to build routing state: ".data ++ e))
    | .ok rp =>
      let referenced := collectReferencedBackends rp.1
      let cleaned := retainOnly rp.2 referenced
      ({ routing := rp.1, pool := cleaned }, none)

/- ### Hostname lookup (src/ghost/src/director.rs lines 653-659,
src/ghost/src/lib.rs lines 235-242) -/

/-- The hostname-normalisation of `get_host_header`:
`host_str.split(':').next()` keeps everything before the FIRST colon, then
`to_lowercase()`. -/
def hostLookupKey (hostValue : Str) : Str :=
  lowerStr (hostValue.takeWhile (· ≠ ':'))

/-- Embedding of `get_host_header` (director.rs lines 653-659): look the
`host` header up and normalise its value. -/
def getHostHeader (hs : List (Str × Str)) : Option Str :=
  (headerLookup hs "host".data).map hostLookupKey

/- ### The NotFound synthetic backend (src/ghost/src/not_found_backend.rs) -/

/-- The status set by `NotFoundBackend::get_response` (line 15). -/
def notFoundStatus : Nat := 404

/-- The Content-Type set by `NotFoundBackend::get_response` (line 16). -/
def notFoundContentType : String := "application/json"

/-- The body produced by `NotFoundBody::new` (line 32). -/
def notFoundBody : String := "\x7b\"error\": \"vhost not found\"\x7d"

end Ghost

namespace Ghost

/-- The element-wise prefix condition exactly as the specification words it:
`/` matches any path; otherwise the path equals the prefix, or starts with it
and the remainder begins at a `/` segment boundary. -/
def pathPfxSpec (pfx path : Str) : Prop :=
  pfx = ['/'] ∨ path = pfx ∨
    (pfx <+: path ∧ (pfx.getLast? = some '/' ∨ (path.drop pfx.length).head? = some '/'))

/- ### Concrete fixtures used to evaluate the model on explicit inputs -/

/-- A matching route with an empty backend list and no filters. -/
def demoEmptyRoute : RouteEntry :=
  { pathMatch := some (.pathPfx "/api".data)
    method := none
    headers := []
    queryParams := []
    filters := none
    backends := []
    priority := 100
    ruleIndex := 0 }

/-- A lower-priority catch-all route with a backend. -/
def demoFallbackRoute : RouteEntry :=
  { pathMatch := none
    method := none
    headers := []
    queryParams := []
    filters := none
    backends := [⟨"10.0.0.2:8080".data, 100⟩]
    priority := 50
    ruleIndex := 1 }

/-- A GET request for `/api/x` with no query string. -/
def demoReq : Request :=
  { headers := []
    path := "/api/x".data
    query := none
    method := "GET".data }

/-- An un-compiled route with negative priority (accepted by the
validator: `priority` is an `i32` and is never range-checked). -/
def demoNegRoute : RouteSpecIn :=
  { pathMatch := none
    method := none
    headers := []
    queryParams := []
    filters := none
    backends := []
    priority := -5 }

/-- An un-compiled route with priority 100. -/
def demoRouteHi : RouteSpecIn :=
  { pathMatch := some (.pathPfx "/api/v2".data)
    method := none
    headers := []
    queryParams := []
    filters := none
    backends := [⟨"10.0.0.1:8080".data, 100⟩]
    priority := 100 }

/-- An un-compiled route with priority 50. -/
def demoRouteLo : RouteSpecIn :=
  { pathMatch := some (.pathPfx "/api".data)
    method := none
    headers := []
    queryParams := []
    filters := none
    backends := [⟨"10.0.0.2:8080".data, 100⟩]
    priority := 50 }

/-- A default backend reference. -/
def demoBackendRef : WeightedBackendRef := ⟨"10.0.99.1:80".data, 100⟩

/-- A published director state with one pooled backend. -/
def demoState : DirectorState :=
  { routing := { exact := [], wildcards := [], defaultRefs := none }
    pool := { keys := ["10.0.0.9:80".data] } }

/-- A build step that always succeeds (keeps the scratch pool). -/
def demoBuildOk : Config → BackendPool → Except Str (RoutingState × BackendPool) :=
  fun _ pool => .ok ({ exact := [], wildcards := [], defaultRefs := none }, pool)

/-- A build step that always fails (models a regex compile failure inside
`build_routing_state`). -/
def demoBuildErr : Config → BackendPool → Except Str (RoutingState × BackendPool) :=
  fun _ _ => .error "Invalid path match".data

/-- The redirect filter of scenario S4: scheme `https`, status 301, no
explicit port, no path rewrite. -/
def demoRedirectFilter : RequestRedirectFilter :=
  { scheme := some "https".data
    hostname := none
    pathType := none
    replaceFullPath := none
    replacePfxMatch := none
    port := none
    statusCode := 301 }

/-- A route carrying only the S4 redirect filter. -/
def demoRedirectRoute : RouteEntry :=
  { pathMatch := none
    method := none
    headers := []
    queryParams := []
    filters := some
      { requestHeaderModifier := none
        responseHeaderModifier := none
        requestRedirect := some demoRedirectFilter
        urlRewrite := none }
    backends := []
    priority := 100
    ruleIndex := 0 }

/-- The S4 request: `GET /p?x=1`, `Host: api.example.com:80`,
`X-Forwarded-Proto: http`. -/
def demoRedirectReq : Request :=
  { headers := [("Host".data, "api.example.com:80".data),
                ("X-Forwarded-Proto".data, "http".data)]
    path := "/p".data
    query := some "x=1".data
    method := "GET".data }

/-- The redirect config captured by `resolve` for the S4 request. -/
def demoRedirectCfg : RedirectConfig :=
  mkRedirectConfig demoRedirectFilter demoRedirectReq none

end Ghost

namespace Ghost

/- ### Theorems -/

/-- C5: PathPrefix matching is element-wise — `matches_path_prefix` agrees
with the specification's condition (prefix `/` matches every path;
otherwise the path equals the prefix, or starts with it and the remainder
begins at a `/` segment boundary), and on the spec's concrete examples
`/api` matches `/api` and `/api/v2` but not `/api2`, while `/api/` matches
`/api/` and `/api/x` but not `/api`. -/
theorem matchesPathPfx_iff_spec :
    (∀ pfx path : Str, matchesPathPfx pfx path = true ↔ pathPfxSpec pfx path)
    ∧ matchesPathPfx "/api".data "/api".data = true
    ∧ matchesPathPfx "/api".data "/api/v2".data = true
    ∧ matchesPathPfx "/api".data "/api2".data = false
    ∧ matchesPathPfx "/api/".data "/api/".data = true
    ∧ matchesPathPfx "/api/".data "/api/x".data = true
    ∧ matchesPathPfx "/api/".data "/api".data = false := by
  refine ⟨?_, by decide, by decide, by decide, by decide, by decide, by decide⟩
  intro pfx path
  constructor
  · intro h
    by_cases h1 : pfx = ['/']
    · exact .inl h1
    by_cases h2 : path = pfx
    · exact .inr (.inl h2)
    by_cases h3 : pfx.isPrefixOf path
    · refine .inr (.inr ⟨List.isPrefixOf_iff_prefix.mp h3, ?_⟩)
      by_cases h4 : pfx.getLast? = some '/'
      · exact .inl h4
      · right
        simpa [matchesPathPfx, h1, h2, h3, h4] using h
    · simp [matchesPathPfx, h1, h2, h3] at h
  · rintro (h1 | h2 | ⟨hp, h4 | h5⟩)
    · simp [matchesPathPfx, h1]
    · simp [matchesPathPfx, h2]
    · have h3 : pfx.isPrefixOf path := List.isPrefixOf_iff_prefix.mpr hp
      simp [matchesPathPfx, h3, h4]
    · have h3 : pfx.isPrefixOf path := List.isPrefixOf_iff_prefix.mpr hp
      simp [matchesPathPfx, h3, h5]

/-- C7 counterexample: the NotFound synthetic backend does not set
`Content-Type: text/plain` with body `vhost not found` — the source sets
`application/json` and a JSON body (not_found_backend.rs lines 16 and 32,
asserted by its own tests). -/
theorem notFound_claim_false :
    ¬ (notFoundStatus = 404 ∧ notFoundContentType = "text/plain"
        ∧ notFoundBody = "vhost not found") := by
  decide

/-- C7 (amended): the NotFound synthetic backend sets status 404,
`Content-Type: application/json`, and body `{"error": "vhost not found"}`
(braces included). -/
theorem notFound_response_facts :
    notFoundStatus = 404 ∧ notFoundContentType = "application/json"
    ∧ notFoundBody = "\x7b\"error\": \"vhost not found\"\x7d" :=
  ⟨rfl, rfl, rfl⟩

/-- C2 counterexample: for a path naming no file, `load` succeeds with the
empty configuration, but its `version` is 1, not 2 (config.rs lines 84 and
101-107; the supported version checked by `validate` is 1, line 141). -/
theorem load_missing_version_not_two :
    load none (fun _ => .error []) = .ok Config.empty
    ∧ Config.empty.version = 1 ∧ Config.empty.version ≠ 2 :=
  ⟨rfl, rfl, by decide⟩

/-- C2 (amended): for every path naming no file, `load` succeeds and
returns the empty configuration with no vhosts, no default, and version
equal to the v1 loader's supported value 1 (which `validate` accepts);
the v2 loader `load_v2` analogously returns the empty `ConfigV2` with
version equal to its supported value 2. -/
theorem load_missing_returns_empty :
    (∀ parse, load none parse = .ok Config.empty)
    ∧ Config.empty = { version := 1, vhosts := [], default := none }
    ∧ validate Config.empty = .ok ()
    ∧ (∀ parse, loadV2 none parse = .ok ConfigV2.empty)
    ∧ ConfigV2.empty = { version := 2, vhosts := [], default := none } :=
  ⟨fun _ => rfl, rfl, rfl, fun _ => rfl, rfl⟩

/-- C9: for a route with `request_redirect {scheme: https, status_code:
301}` (no explicit port, no path rewrite), the request
`GET /p?x=1` with `Host: api.example.com:80` and `X-Forwarded-Proto: http`
resolves to the Redirect synthetic carrying the captured config, whose
response status is 301 and whose Location is exactly
`https://api.example.com/p?x=1` — the new scheme's default port 443 is
chosen and omitted, and the original query string is appended. -/
theorem redirect_scheme_change_location :
    vhostResolve [demoRedirectRoute] demoRedirectReq 0 = .redirect demoRedirectCfg
    ∧ redirectResponseStatus demoRedirectCfg = 301
    ∧ buildLocation demoRedirectCfg = "https://api.example.com/p?x=1".data := by
  refine ⟨rfl, rfl, by decide⟩

/-- First-occurrence lookup misses when no pair carries the name. -/
theorem assocFirst_eq_none (ps : List (Str × Str)) (n : Str)
    (h : ∀ kv ∈ ps, kv.1 ≠ n) : assocFirst ps n = none := by
  induction ps with
  | nil => rfl
  | cons kv rest ih =>
    unfold assocFirst
    rw [if_neg (h kv (List.mem_cons_self kv rest))]
    exact ih fun kv' hm => h kv' (List.mem_cons_of_mem kv hm)

/-- A kept query pair comes from a piece containing `=`, keyed by the text
before the first `=`. -/
theorem splitPair_some (pair : Str) (kv : Str × Str) (h : splitPair pair = some kv) :
    '=' ∈ pair ∧ kv.1 = pair.takeWhile (· ≠ '=') := by
  unfold splitPair at h
  by_cases he : '=' ∈ pair
  · rw [if_pos he] at h
    exact ⟨he, by cases h; rfl⟩
  · rw [if_neg he] at h
    cases h

/-- C10: a `&`-separated query pair containing no `=` is dropped entirely
by `parse_query_string`; consequently any `QueryParamMatch` (Exact or
RegularExpression) on a name `n` fails for every query string that lists
`n` only in `=`-free pairs — even an Exact match expecting the empty
value. -/
theorem queryParam_without_eq_never_matches :
    (∀ pair : Str, '=' ∉ pair → splitPair pair = none)
    ∧ ∀ (n v : Str) (f : Str → Bool) (q : Str),
        (∀ pair ∈ splitOnChar '&' q, '=' ∈ pair → pair.takeWhile (· ≠ '=') ≠ n) →
        QueryParamMatchCompiled.matches (.exact n v) q = false
        ∧ QueryParamMatchCompiled.matches (.regex n f) q = false := by
  constructor
  · intro pair hne
    unfold splitPair
    rw [if_neg hne]
  · intro n v f q hq
    have hnone : assocFirst (parseQueryString q) n = none := by
      refine assocFirst_eq_none _ _ fun kv hm => ?_
      obtain ⟨pair, hpair, hsplit⟩ := List.mem_filterMap.mp hm
      obtain ⟨he, hk⟩ := splitPair_some pair kv hsplit
      rw [hk]
      exact hq pair hpair he
    constructor
    · simp [QueryParamMatchCompiled.matches, hnone]
    · simp [QueryParamMatchCompiled.matches, hnone]

/-- C10 witness: the claim's concrete instances — `flag` and `flag&x=1`
list `flag` without `=`; both an Exact match on the empty value and a
regex match on `flag` fail. -/
theorem queryParam_without_eq_never_matches_w :
    splitPair "flag".data = none
    ∧ QueryParamMatchCompiled.matches (.exact "flag".data "".data) "flag".data = false
    ∧ QueryParamMatchCompiled.matches (.exact "flag".data "".data) "flag&x=1".data = false
    ∧ QueryParamMatchCompiled.matches
        (.regex "flag".data (fun _ => true)) "flag&x=1".data = false :=
  ⟨queryParam_without_eq_never_matches.1 "flag".data (by decide),
   (queryParam_without_eq_never_matches.2 "flag".data "".data (fun _ => true)
      "flag".data (by decide)).1,
   (queryParam_without_eq_never_matches.2 "flag".data "".data (fun _ => true)
      "flag&x=1".data (by decide)).1,
   (queryParam_without_eq_never_matches.2 "flag".data "".data (fun _ => true)
      "flag&x=1".data (by decide)).2⟩

/-- The total weight of a cons cell. -/
theorem sumWeights_cons (b : WeightedBackendRef) (rest : List WeightedBackendRef) :
    sumWeights (b :: rest) = b.weight + sumWeights rest := by
  simp [sumWeights]

/-- The cumulative-weight scan picks exactly the first backend whose
cumulative weight exceeds the drawn value. -/
theorem pickCumulative_spec (refs : List WeightedBackendRef) (r : Nat) :
    ∀ (cum : Nat), cum ≤ r → r < cum + sumWeights refs →
    ∃ (i : Nat) (hi : i < refs.length),
      pickCumulative r cum refs = some (refs.get ⟨i, hi⟩)
      ∧ r < cum + partialWeight refs (i + 1)
      ∧ ∀ j < i, ¬ r < cum + partialWeight refs (j + 1) := by
  induction refs with
  | nil =>
    intro cum hle hlt
    simp [sumWeights] at hlt
    omega
  | cons b rest ih =>
    intro cum hle hlt
    by_cases hb : r < cum + b.weight
    · refine ⟨0, Nat.succ_pos _, ?_, ?_, ?_⟩
      · simp [pickCumulative, hb]
      · simpa [partialWeight, sumWeights] using hb
      · intro j hj
        omega
    · have hle' : cum + b.weight ≤ r := Nat.le_of_not_lt hb
      have hlt' : r < (cum + b.weight) + sumWeights rest := by
        rw [sumWeights_cons] at hlt
        omega
      obtain ⟨i, hi, hpick, hup, hlow⟩ := ih (cum + b.weight) hle' hlt'
      refine ⟨i + 1, Nat.succ_lt_succ hi, ?_, ?_, ?_⟩
      · simpa [pickCumulative, hb] using hpick
      · have hpw : partialWeight (b :: rest) (i + 1 + 1) = b.weight + partialWeight rest (i + 1) := by
          simp [partialWeight, List.take_succ_cons, sumWeights]
        omega
      · intro j hj
        cases j with
        | zero =>
          simpa [partialWeight, sumWeights] using hb
        | succ j' =>
          have hj' : j' < i := Nat.lt_of_succ_lt_succ hj
          have := hlow j' hj'
          have hpw : partialWeight (b :: rest) (j' + 1 + 1) = b.weight + partialWeight rest (j' + 1) := by
            simp [partialWeight, List.take_succ_cons, sumWeights]
          omega

/-- C3: weighted backend selection — a single-entry list returns that
entry; a list of two or more entries whose total weight `S` is zero
returns `None`; otherwise, for the drawn `r ∈ [0, S)`, selection returns
the first backend in list order whose cumulative weight exceeds `r`; and
an empty list makes the post-match step of `resolve` return the
InternalError synthetic. -/
theorem select_backend_weighted_spec :
    (∀ (b : WeightedBackendRef) (r : Nat), selectBackendWeighted [b] r = some b)
    ∧ (∀ (refs : List WeightedBackendRef) (r : Nat), 2 ≤ refs.length →
        sumWeights refs = 0 → selectBackendWeighted refs r = none)
    ∧ (∀ (refs : List WeightedBackendRef) (r : Nat), 2 ≤ refs.length →
        r < sumWeights refs →
        ∃ (i : Nat) (hi : i < refs.length),
          selectBackendWeighted refs r = some (refs.get ⟨i, hi⟩)
          ∧ r < partialWeight refs (i + 1)
          ∧ ∀ j < i, ¬ r < partialWeight refs (j + 1))
    ∧ ∀ r : Nat, postMatchOutcome [] r = .internalError := by
  refine ⟨fun b r => rfl, ?_, ?_, fun r => rfl⟩
  · intro refs r hlen hzero
    match refs, hlen with
    | b :: c :: rest, _ =>
      simp only [selectBackendWeighted]
      rw [if_pos hzero]
  · intro refs r hlen hr
    match refs, hlen with
    | b :: c :: rest, _ =>
      have htot : sumWeights (b :: c :: rest) ≠ 0 := by omega
      obtain ⟨i, hi, hpick, hup, hlow⟩ :=
        pickCumulative_spec (b :: c :: rest) r 0 (Nat.zero_le r) (by simpa using hr)
      refine ⟨i, hi, ?_, by simpa using hup, fun j hj => by simpa using hlow j hj⟩
      simp only [selectBackendWeighted]
      rw [if_neg htot, hpick]

/-- C3 witness: concrete evaluations — a singleton returns its entry; two
zero-weight backends return `None`; with weights 3 and 5 and draw 4 the
second backend (cumulative weight 8 > 4, first to exceed) is selected; the
empty list yields the InternalError synthetic. -/
theorem select_backend_weighted_spec_w :
    selectBackendWeighted [⟨"10.0.0.1:8080".data, 100⟩] 7
      = some ⟨"10.0.0.1:8080".data, 100⟩
    ∧ selectBackendWeighted [⟨"a:1".data, 0⟩, ⟨"b:2".data, 0⟩] 0 = none
    ∧ (∃ (i : Nat) (hi : i < ([⟨"a:1".data, 3⟩, ⟨"b:2".data, 5⟩] : List WeightedBackendRef).length),
        selectBackendWeighted [⟨"a:1".data, 3⟩, ⟨"b:2".data, 5⟩] 4
          = some (([⟨"a:1".data, 3⟩, ⟨"b:2".data, 5⟩] : List WeightedBackendRef).get ⟨i, hi⟩)
        ∧ 4 < partialWeight [⟨"a:1".data, 3⟩, ⟨"b:2".data, 5⟩] (i + 1)
        ∧ ∀ j < i, ¬ 4 < partialWeight [⟨"a:1".data, 3⟩, ⟨"b:2".data, 5⟩] (j + 1))
    ∧ postMatchOutcome [] 0 = .internalError :=
  ⟨select_backend_weighted_spec.1 ⟨"10.0.0.1:8080".data, 100⟩ 7,
   select_backend_weighted_spec.2.1 [⟨"a:1".data, 0⟩, ⟨"b:2".data, 0⟩] 0
     (by decide) (by decide),
   select_backend_weighted_spec.2.2.1 [⟨"a:1".data, 3⟩, ⟨"b:2".data, 5⟩] 4
     (by decide) (by decide),
   select_backend_weighted_spec.2.2.2 0⟩

/-- `match_routes` returns the data of the first route (in list order)
whose conditions match, regardless of its backend list. -/
theorem matchRoutes_first (routes : List RouteEntry) (req : Request) :
    ∀ (i : Nat) (hi : i < routes.length),
    (∀ j (hj : j < i), routeMatches (routes.get ⟨j, Nat.lt_trans hj hi⟩) req = false) →
    routeMatches (routes.get ⟨i, hi⟩) req = true →
    matchRoutes routes req =
      some { backends := (routes.get ⟨i, hi⟩).backends
             filters := (routes.get ⟨i, hi⟩).filters
             matchedPath := (routes.get ⟨i, hi⟩).pathMatch } := by
  induction routes with
  | nil => intro i hi; exact absurd hi (Nat.not_lt_zero i)
  | cons rt rest ih =>
    intro i hi hskip hmatch
    cases i with
    | zero =>
      simp only [List.get] at hmatch ⊢
      simp [matchRoutes, hmatch]
    | succ i' =>
      have h0 : routeMatches rt req = false := hskip 0 (Nat.succ_pos i')
      have hi' : i' < rest.length := Nat.lt_of_succ_lt_succ hi
      simp only [List.get] at hmatch ⊢
      rw [matchRoutes, if_neg (by simp [h0])]
      exact ih i' hi' (fun j hj => hskip (j + 1) (Nat.succ_lt_succ hj)) hmatch

/-- C1: if the first matching route of a vhost (the highest-priority one,
since the list is priority-sorted) has an empty backend list and its
filters carry no `request_redirect`, then `resolve` returns the
InternalError synthetic — the route terminates matching and is never
skipped in favour of a later (lower-priority) route, whatever those routes
hold. -/
theorem empty_backends_resolves_internal_error
    (routes : List RouteEntry) (req : Request) (r : Nat) (i : Nat) (hi : i < routes.length)
    (hskip : ∀ j (hj : j < i), routeMatches (routes.get ⟨j, Nat.lt_trans hj hi⟩) req = false)
    (hmatch : routeMatches (routes.get ⟨i, hi⟩) req = true)
    (hempty : (routes.get ⟨i, hi⟩).backends = [])
    (hnoredir : ∀ fs, (routes.get ⟨i, hi⟩).filters = some fs → fs.requestRedirect = none) :
    vhostResolve routes req r = .internalError := by
  rw [vhostResolve, matchRoutes_first routes req i hi hskip hmatch]
  rw [List.get_eq_getElem] at hempty
  cases hf : (routes.get ⟨i, hi⟩).filters with
  | none => simp [hempty, postMatchOutcome, selectBackendWeighted]
  | some fs =>
    have hrd := hnoredir fs hf
    simp [hrd, hempty, postMatchOutcome, selectBackendWeighted]

/-- C1 witness: with a matching empty-backends route of priority 100 ahead
of a matching catch-all route of priority 50 that has a backend, `resolve`
returns the InternalError synthetic instead of falling through to the
lower-priority route. -/
theorem empty_backends_resolves_internal_error_w :
    vhostResolve [demoEmptyRoute, demoFallbackRoute] demoReq 0 = .internalError :=
  empty_backends_resolves_internal_error [demoEmptyRoute, demoFallbackRoute] demoReq 0
    0 (by decide)
    (fun j hj => absurd hj (Nat.not_lt_zero j))
    (by decide)
    rfl
    (fun fs h => by cases h)

/-- ASCII lowercasing maps only letters; a colon is fixed and nothing
else maps to it. -/
theorem toLower_eq_colon_iff (c : Char) : Char.toLower c = ':' ↔ c = ':' := by
  constructor
  · intro h
    simp only [Char.toLower] at h
    by_cases hb : c.toNat ≥ 65 ∧ c.toNat ≤ 90
    · rw [if_pos hb] at h
      obtain ⟨hge, hle⟩ := hb
      generalize hg : c.toNat = n at h hge hle
      interval_cases n <;> exact absurd h (by decide)
    · rwa [if_neg hb] at h
  · rintro rfl
    decide

/-- `takeWhile` commutes with `map` when the predicate is invariant under
the mapped function. -/
theorem takeWhile_map_comm (f : Char → Char) (p : Char → Bool)
    (hf : ∀ c, p (f c) = p c) (s : Str) :
    (s.map f).takeWhile p = (s.takeWhile p).map f := by
  induction s with
  | nil => rfl
  | cons c rest ih =>
    simp only [List.map_cons, List.takeWhile_cons, hf c]
    cases hpc : p c with
    | false => simp [hpc]
    | true => simp [hpc, ih]

/-- `takeWhile (· ≠ ':')` commutes with ASCII lowercasing. -/
theorem takeWhile_ne_colon_lower (s : Str) :
    (lowerStr s).takeWhile (· ≠ ':') = lowerStr (s.takeWhile (· ≠ ':')) :=
  takeWhile_map_comm Char.toLower _
    (fun c => decide_eq_decide.mpr (not_congr (toLower_eq_colon_iff c))) s

/-- Everything before an appended `:port` suffix is exactly everything
before the host's own first colon. -/
theorem takeWhile_ne_colon_append (h p : Str) :
    (h ++ ':' :: p).takeWhile (· ≠ ':') = h.takeWhile (· ≠ ':') := by
  induction h with
  | nil => simp [List.takeWhile_cons]
  | cons c rest ih =>
    rw [List.cons_append, List.takeWhile_cons, List.takeWhile_cons, ih]

/-- C8 counterexample: hostname lookup strips at the FIRST colon, so the
bracketed IPv6 Host `[::1]:80` is reduced to `[` — not to `[::1]` as the
claim states (director.rs line 657: `host_str.split(':').next()`). -/
theorem host_lookup_bracket_ctrex :
    hostLookupKey "[::1]:80".data = "[".data
    ∧ hostLookupKey "[::1]:80".data ≠ "[::1]".data := by
  constructor
  · decide
  · decide

/-- C8 (amended): hostname lookup lowercases the Host value and strips
everything from the first colon on (for a bracketed IPv6 Host such as
`[::1]:80` the stripped value is therefore `[`); consequently lookup is
case- and port-insensitive: hosts differing only in letter case, with any
`:port` suffixes, normalise identically.  The bracket-aware parsing that
yields `[::1]` from `[::1]:80` belongs to `parse_host_and_port`, used only
for redirect-config capture. -/
theorem host_lookup_case_port_insensitive :
    (∀ (h1 h2 p1 p2 : Str), lowerStr h1 = lowerStr h2 →
        hostLookupKey (h1 ++ ':' :: p1) = hostLookupKey (h2 ++ ':' :: p2))
    ∧ parseHostAndPort "[::1]:80".data = ("[::1]".data, some 80) := by
  constructor
  · intro h1 h2 p1 p2 hcase
    unfold hostLookupKey
    rw [takeWhile_ne_colon_append, takeWhile_ne_colon_append]
    have e1 : lowerStr (h1.takeWhile (· ≠ ':')) = (lowerStr h1).takeWhile (· ≠ ':') :=
      (takeWhile_ne_colon_lower h1).symm
    have e2 : lowerStr (h2.takeWhile (· ≠ ':')) = (lowerStr h2).takeWhile (· ≠ ':') :=
      (takeWhile_ne_colon_lower h2).symm
    rw [e1, e2, hcase]
  · decide

/-- C8 witness: `API.Example.COM:80` and `api.example.com:8443` normalise
to the same lookup key. -/
theorem host_lookup_case_port_insensitive_w :
    hostLookupKey ("API.Example.COM".data ++ ':' :: "80".data)
      = hostLookupKey ("api.example.com".data ++ ':' :: "8443".data) :=
  host_lookup_case_port_insensitive.1 "API.Example.COM".data "api.example.com".data
    "80".data "8443".data (by decide)

/-- C6: `reload` is transactional — whenever it reports an error (config
read/parse/validation failure via `loadConfig`, or routing-state build
failure via `build`), the published `(routing, pool)` snapshot is exactly
the one from before the call; the new snapshot is stored only after every
fallible step has succeeded. -/
theorem reload_transactional
    (st : DirectorState) (loadConfig : Except Str Config)
    (build : Config → BackendPool → Except Str (RoutingState × BackendPool))
    (e : Str) (h : (reload st loadConfig build).2 = some e) :
    (reload st loadConfig build).1 = st := by
  cases loadConfig with
  | error msg => rfl
  | ok cfg =>
    unfold reload at h ⊢
    cases hb : build cfg st.pool with
    | error msg => simp [hb]
    | ok rp => simp [hb] at h

/-- C6 witness: a parse failure and a build failure each leave the
published snapshot untouched. -/
theorem reload_transactional_w :
    (reload demoState (.error "failed to parse config file".data) demoBuildOk).1 = demoState
    ∧ (reload demoState (.ok Config.empty) demoBuildErr).1 = demoState :=
  ⟨reload_transactional demoState (.error "failed to parse config file".data) demoBuildOk
      "failed to parse config file".data rfl,
   reload_transactional demoState (.ok Config.empty) demoBuildErr
      ("Failed to build routing state: ".data ++ "Invalid path match".data) rfl⟩

/-- Membership through stable insertion. -/
theorem mem_insertRoute (x z : RouteEntry) (l : List RouteEntry)
    (h : z ∈ insertRoute x l) : z = x ∨ z ∈ l := by
  induction l with
  | nil =>
    simp [insertRoute] at h
    exact .inl h
  | cons y ys ih =>
    unfold insertRoute at h
    by_cases hp : y.priority < x.priority
    · rw [if_pos hp] at h
      rcases List.mem_cons.mp h with rfl | h2
      · exact .inl rfl
      · exact .inr h2
    · rw [if_neg hp] at h
      rcases List.mem_cons.mp h with rfl | h2
      · exact .inr (List.mem_cons_self _ _)
      · rcases ih h2 with h3 | h3
        · exact .inl h3
        · exact .inr (List.mem_cons_of_mem _ h3)

/-- Stable insertion preserves the lexicographic route order provided the
inserted entry carries a larger rule index than everything already
placed (which holds because entries are inserted in input order). -/
theorem insertRoute_pairwise (x : RouteEntry) (l : List RouteEntry)
    (hpw : List.Pairwise routeLe l)
    (hidx : ∀ y ∈ l, y.ruleIndex < x.ruleIndex) :
    List.Pairwise routeLe (insertRoute x l) := by
  induction l with
  | nil => simp [insertRoute]
  | cons y ys ih =>
    obtain ⟨h1, h2⟩ := List.pairwise_cons.mp hpw
    unfold insertRoute
    by_cases hp : y.priority < x.priority
    · rw [if_pos hp]
      refine List.pairwise_cons.mpr ⟨?_, hpw⟩
      intro z hz
      rcases List.mem_cons.mp hz with rfl | hz2
      · exact .inl hp
      · rcases h1 z hz2 with h3 | ⟨h3, _⟩
        · exact .inl (lt_trans h3 hp)
        · exact .inl (h3 ▸ hp)
    · rw [if_neg hp]
      refine List.pairwise_cons.mpr ⟨?_, ih h2 fun z hz => hidx z (List.mem_cons_of_mem _ hz)⟩
      intro z hz
      rcases mem_insertRoute x z ys hz with rfl | hz2
      · rcases lt_or_eq_of_le (le_of_not_lt hp) with hlt | heq
        · exact .inl hlt
        · exact .inr ⟨heq.symm, Nat.le_of_lt (hidx y (List.mem_cons_self _ _))⟩
      · exact h1 z hz2

/-- Membership through the insertion-sort fold. -/
theorem mem_foldl_insert (l : List RouteEntry) :
    ∀ (acc : List RouteEntry) (z : RouteEntry),
      z ∈ l.foldl (fun acc x => insertRoute x acc) acc → z ∈ acc ∨ z ∈ l := by
  induction l with
  | nil => intro acc z h; exact .inl h
  | cons x xs ih =>
    intro acc z h
    rcases ih (insertRoute x acc) z h with h2 | h2
    · rcases mem_insertRoute x z acc h2 with rfl | h3
      · exact .inr (List.mem_cons_self _ _)
      · exact .inl h3
    · exact .inr (List.mem_cons_of_mem _ h2)

/-- The insertion-sort fold yields a list ordered by priority descending
with ties in rule-index order, provided pending entries have increasing
rule indices exceeding everything already placed. -/
theorem foldl_insert_pairwise (l : List RouteEntry) :
    ∀ (acc : List RouteEntry),
      List.Pairwise routeLe acc →
      (∀ y ∈ acc, ∀ x ∈ l, y.ruleIndex < x.ruleIndex) →
      List.Pairwise (fun a b : RouteEntry => a.ruleIndex < b.ruleIndex) l →
      List.Pairwise routeLe (l.foldl (fun acc x => insertRoute x acc) acc) := by
  induction l with
  | nil => intro acc hacc _ _; exact hacc
  | cons x xs ih =>
    intro acc hacc hidx hl
    obtain ⟨hx, hxs⟩ := List.pairwise_cons.mp hl
    refine ih (insertRoute x acc)
      (insertRoute_pairwise x acc hacc fun y hy => hidx y hy x (List.mem_cons_self _ _))
      ?_ hxs
    intro y hy z hz
    rcases mem_insertRoute x y acc hy with rfl | hy2
    · exact hx z hz
    · exact hidx y hy2 z (List.mem_cons_of_mem _ hz)

/-- Entries produced from position `i` onwards all have rule index at
least `i`. -/
theorem mkEntries_ruleIndex_ge (rs : List RouteSpecIn) :
    ∀ (i : Nat), ∀ y ∈ mkEntries i rs, i ≤ y.ruleIndex := by
  induction rs with
  | nil => intro i y hy; simp [mkEntries] at hy
  | cons r rest ih =>
    intro i y hy
    rcases List.mem_cons.mp hy with rfl | hmem
    · exact Nat.le_refl i
    · exact Nat.le_of_succ_le (ih (i + 1) y hmem)

/-- Rule indices increase strictly along the compiled entry list. -/
theorem mkEntries_pairwise (rs : List RouteSpecIn) :
    ∀ (i : Nat),
      List.Pairwise (fun a b : RouteEntry => a.ruleIndex < b.ruleIndex) (mkEntries i rs) := by
  induction rs with
  | nil => intro i; exact List.Pairwise.nil
  | cons r rest ih =>
    intro i
    refine List.pairwise_cons.mpr ⟨?_, ih (i + 1)⟩
    intro y hy
    exact Nat.lt_of_succ_le (mkEntries_ruleIndex_ge rest (i + 1) y hy)

/-- Every compiled entry's priority is a priority of some input route. -/
theorem mkEntries_priority (rs : List RouteSpecIn) :
    ∀ (i : Nat), ∀ y ∈ mkEntries i rs, ∃ r ∈ rs, y.priority = r.priority := by
  induction rs with
  | nil => intro i y hy; simp [mkEntries] at hy
  | cons r rest ih =>
    intro i y hy
    rcases List.mem_cons.mp hy with rfl | hmem
    · exact ⟨r, List.mem_cons_self _ _, rfl⟩
    · obtain ⟨r2, hr2, hp⟩ := ih (i + 1) y hmem
      exact ⟨r2, List.mem_cons_of_mem _ hr2, hp⟩

/-- C4 counterexample: the synthesized default route (priority 0) is
appended AFTER the priority sort, so a vhost with a negative-priority
route and non-empty `default_backends` yields the route list `[-5, 0]` —
not sorted by priority descending, contradicting the claim's "for every
possible route priority, including negative priorities". -/
theorem default_route_breaks_desc_order :
    ((buildVhostRouteEntries [demoNegRoute] [demoBackendRef]).map fun e => e.priority)
      = [-5, 0]
    ∧ ¬ List.Pairwise (fun a b : RouteEntry => b.priority ≤ a.priority)
        (buildVhostRouteEntries [demoNegRoute] [demoBackendRef]) := by
  exact ⟨by decide, by decide⟩

/-- C4 (amended): the compiled route list of a vhost is sorted by priority
descending with ties broken by rule index (input order) ascending; when
`default_backends` is non-empty the synthesized priority-0 default route
is appended AFTER the sort, so the full list stays priority-descending
whenever every configured route priority is non-negative (with a negative
priority the appended default route can sit out of order). -/
theorem build_vhost_routes_sorted
    (routes : List RouteSpecIn) (defaultRefs : List WeightedBackendRef) :
    List.Pairwise routeLe (sortRoutesByPriority (mkEntries 0 routes))
    ∧ (defaultRefs.isEmpty = false →
        buildVhostRouteEntries routes defaultRefs
          = sortRoutesByPriority (mkEntries 0 routes) ++ [mkDefaultRoute defaultRefs])
    ∧ ((∀ r ∈ routes, 0 ≤ r.priority) →
        List.Pairwise (fun a b : RouteEntry => b.priority ≤ a.priority)
          (buildVhostRouteEntries routes defaultRefs)) := by
  have hsorted : List.Pairwise routeLe (sortRoutesByPriority (mkEntries 0 routes)) := by
    unfold sortRoutesByPriority
    exact foldl_insert_pairwise _ [] List.Pairwise.nil (by simp) (mkEntries_pairwise routes 0)
  refine ⟨hsorted, ?_, ?_⟩
  · intro hne
    unfold buildVhostRouteEntries
    rw [if_neg (by simp [hne])]
  · intro hpos
    have hdesc : List.Pairwise (fun a b : RouteEntry => b.priority ≤ a.priority)
        (sortRoutesByPriority (mkEntries 0 routes)) := by
      refine hsorted.imp ?_
      intro a b hab
      rcases hab with h | ⟨h, _⟩
      · exact le_of_lt h
      · exact le_of_eq h.symm
    unfold buildVhostRouteEntries
    by_cases hde : defaultRefs.isEmpty
    · rw [if_pos hde]
      exact hdesc
    · rw [if_neg hde]
      rw [List.pairwise_append]
      refine ⟨hdesc, List.pairwise_singleton _ _, ?_⟩
      intro a ha b hb
      have hb2 : b = mkDefaultRoute defaultRefs := by simpa using hb
      have ha2 : a ∈ mkEntries 0 routes := by
        rcases mem_foldl_insert (mkEntries 0 routes) [] a ha with h | h
        · simp at h
        · exact h
      obtain ⟨r, hr, hpr⟩ := mkEntries_priority routes 0 a ha2
      subst hb2
      show (mkDefaultRoute defaultRefs).priority ≤ a.priority
      have h0 : (mkDefaultRoute defaultRefs).priority = 0 := rfl
      rw [h0, hpr]
      exact hpos r hr

/-- C4 witness: two routes of priorities 100 and 50 with a non-empty
default-backend list — the sorted entry list is ordered, equals the
sort-then-append form, and the full list is priority-descending. -/
theorem build_vhost_routes_sorted_w :
    List.Pairwise routeLe (sortRoutesByPriority (mkEntries 0 [demoRouteHi, demoRouteLo]))
    ∧ buildVhostRouteEntries [demoRouteHi, demoRouteLo] [demoBackendRef]
        = sortRoutesByPriority (mkEntries 0 [demoRouteHi, demoRouteLo])
          ++ [mkDefaultRoute [demoBackendRef]]
    ∧ List.Pairwise (fun a b : RouteEntry => b.priority ≤ a.priority)
        (buildVhostRouteEntries [demoRouteHi, demoRouteLo] [demoBackendRef]) :=
  ⟨(build_vhost_routes_sorted [demoRouteHi, demoRouteLo] [demoBackendRef]).1,
   (build_vhost_routes_sorted [demoRouteHi, demoRouteLo] [demoBackendRef]).2.1 (by decide),
   (build_vhost_routes_sorted [demoRouteHi, demoRouteLo] [demoBackendRef]).2.2 (by decide)⟩

end Ghost
